import Mathlib

/-!
# Verification of linear-regression-rs

Shallow embedding of `src/lib.rs` of the `linear-regression-rs` repository.
`f64` values are modelled as exact rationals (`ℚ`); the summation and loop
structure of the Rust code is preserved (left folds over `zip x y` in dataset
order, the same accumulator updates, the same division placement).  Methods
take `&mut self` in Rust, so each embedded operation returns its result
together with the (here: unchanged) frame state; `regression` additionally
returns the list of progress records the verbose branch prints to stdout.
-/

namespace LinearRegressionRs

/-- The Rust struct `Frame { y: Vec<f64>, x: Vec<f64>, verbose: bool }`. -/
structure Frame where
  y : List ℚ
  x : List ℚ
  verbose : Bool
deriving DecidableEq, Repr

/-- Embeds `Frame::squared_error`: folds `error += delta * delta` with
`delta = y - f(x)` over `zip(&self.x, &self.y)`; returns the error and the
(unchanged) `&mut self` state. -/
def Frame.squared_error (self : Frame) (f : ℚ → ℚ) : ℚ × Frame :=
  let error := (self.x.zip self.y).foldl
    (fun error xy =>
      let delta := xy.2 - f xy.1
      error + delta * delta) 0
  (error, self)

/-- Embeds `Frame::mean_squared_error`: `self.squared_error(f) / self.x.len()`. -/
def Frame.mean_squared_error (self : Frame) (f : ℚ → ℚ) : ℚ × Frame :=
  let r := self.squared_error f
  (r.1 / (r.2.x.length : ℚ), r.2)

/-- Embeds `Frame::gradient_descent`: accumulates the two partial-derivative
sums over `zip(&self.x, &self.y)` with the `-(2.0 / length)` factor inside each
summand, then applies one update step scaled by the learning rate. -/
def Frame.gradient_descent (self : Frame) (slope b learning_rate : ℚ) :
    (ℚ × ℚ) × Frame :=
  let length : ℚ := (self.x.length : ℚ)
  let grads := (self.x.zip self.y).foldl
    (fun (g : ℚ × ℚ) xy =>
      (g.1 + -(2 / length) * xy.1 * (xy.2 - (slope * xy.1 + b)),
       g.2 + -(2 / length) * (xy.2 - (slope * xy.1 + b))))
    (0, 0)
  ((slope - grads.1 * learning_rate, b - grads.2 * learning_rate), self)

/-- Embeds `Frame::regression`: starting from `(0.0, 0.0)`, the verbose branch
runs `for x in 0..epoch` applying `gradient_descent` and printing a progress
record per epoch, the quiet branch runs the same loop without printing.  The
result is the final pair, the `&mut self` state, and the emitted progress
records `(epoch index, slope, intercept)`.  The Rust epoch counter is an
`i32`; a range `0..epoch` with a non-positive bound is empty, which `Int.toNat`
captures. -/
def Frame.regression (self : Frame) (epoch : ℤ) (learning_rate : ℚ) :
    (ℚ × ℚ) × Frame × List (ℕ × ℚ × ℚ) :=
  if self.verbose then
    (List.range epoch.toNat).foldl
      (fun st i =>
        let r := st.2.1.gradient_descent st.1.1 st.1.2 learning_rate
        (r.1, r.2, st.2.2 ++ [(i, r.1.1, r.1.2)]))
      ((0, 0), self, [])
  else
    (List.range epoch.toNat).foldl
      (fun st _ =>
        let r := st.2.1.gradient_descent st.1.1 st.1.2 learning_rate
        (r.1, r.2, st.2.2))
      ((0, 0), self, [])

/-- Specification-side sum: the slope gradient as the sum, in dataset order,
of `-(2/n) * x_i * (y_i - (slope * x_i + intercept))` over the aligned pairs,
with `n` the length of `x`. -/
def slope_gradient_sum (fr : Frame) (slope b : ℚ) : ℚ :=
  ((fr.x.zip fr.y).map
    (fun xy => -(2 / (fr.x.length : ℚ)) * xy.1 * (xy.2 - (slope * xy.1 + b)))).sum

/-- Specification-side sum: the intercept gradient as the sum, in dataset
order, of `-(2/n) * (y_i - (slope * x_i + intercept))` over the aligned pairs. -/
def intercept_gradient_sum (fr : Frame) (slope b : ℚ) : ℚ :=
  ((fr.x.zip fr.y).map
    (fun xy => -(2 / (fr.x.length : ℚ)) * (xy.2 - (slope * xy.1 + b)))).sum

/-- Specification-side sum: the squared error as the sum over the aligned
pairs of `(y_i - f x_i)^2`. -/
def squared_error_sum (fr : Frame) (f : ℚ → ℚ) : ℚ :=
  ((fr.x.zip fr.y).map (fun xy => (xy.2 - f xy.1) ^ 2)).sum

/-- Specification-side view of one training step: the parameter pair produced
by `gradient_descent` at the current pair. -/
def gd_step (fr : Frame) (learning_rate : ℚ) (p : ℚ × ℚ) : ℚ × ℚ :=
  (fr.gradient_descent p.1 p.2 learning_rate).1

/-- The fixture of the repository tests: x = [1,2,3,4,5], y = [1,2,4,4,5]. -/
def fixture_frame : Frame :=
  { x := [1, 2, 3, 4, 5], y := [1, 2, 4, 4, 5], verbose := false }

/-- The test fixture after `frame.x[0] = 8.0; frame.x[2] = 2.0`. -/
def updated_frame : Frame :=
  { fixture_frame with x := (fixture_frame.x.set 0 8).set 2 2 }

/-- A frame with no observations at all. -/
def empty_frame : Frame :=
  { x := [], y := [], verbose := false }

/-- Convergence scenario A of the repository tests: the perfect line y = x on
x = [1..10]. -/
def convergence_frame_a : Frame :=
  { x := [1, 2, 3, 4, 5, 6, 7, 8, 9, 10],
    y := [1, 2, 3, 4, 5, 6, 7, 8, 9, 10], verbose := false }

/-- Convergence scenario B of the repository tests: y = 3x + 4 pointwise. -/
def convergence_frame_b : Frame :=
  { x := [3, 2, 1, 4.3, 3.4, 8.2, 1.1, 4.5, 6.7],
    y := [13, 10, 7, 16.9, 14.2, 28.6, 7.3, 17.5, 24.1], verbose := false }

/-- Squared distance of the parameter pair from the exact least-squares
solution (1, 0) of scenario A. -/
def lyapunov_a (p : ℚ × ℚ) : ℚ := (p.1 - 1) ^ 2 + p.2 ^ 2

/-- Squared distance of the parameter pair from the exact least-squares
solution (3, 4) of scenario B. -/
def lyapunov_b (p : ℚ × ℚ) : ℚ := (p.1 - 3) ^ 2 + (p.2 - 4) ^ 2

theorem se_foldl (f : ℚ → ℚ) (l : List (ℚ × ℚ)) (a : ℚ) :
    l.foldl (fun error xy =>
        let delta := xy.2 - f xy.1
        error + delta * delta) a
      = a + (l.map (fun xy => (xy.2 - f xy.1) ^ 2)).sum := by
  induction l generalizing a with
  | nil => simp
  | cons hd tl ih => simp only [List.foldl_cons, List.map_cons, List.sum_cons, ih]; ring

theorem gd_foldl (c slope b : ℚ) (l : List (ℚ × ℚ)) (g : ℚ × ℚ) :
    l.foldl (fun (g : ℚ × ℚ) xy =>
        (g.1 + -(2 / c) * xy.1 * (xy.2 - (slope * xy.1 + b)),
         g.2 + -(2 / c) * (xy.2 - (slope * xy.1 + b)))) g
      = (g.1 + (l.map (fun xy => -(2 / c) * xy.1 * (xy.2 - (slope * xy.1 + b)))).sum,
         g.2 + (l.map (fun xy => -(2 / c) * (xy.2 - (slope * xy.1 + b)))).sum) := by
  induction l generalizing g with
  | nil => simp
  | cons hd tl ih =>
    simp only [List.foldl_cons, List.map_cons, List.sum_cons, ih, Prod.mk.injEq]
    constructor <;> ring

theorem squared_error_fst (fr : Frame) (f : ℚ → ℚ) :
    (fr.squared_error f).1 = squared_error_sum fr f := by
  simp [Frame.squared_error, squared_error_sum, se_foldl]

theorem gradient_descent_fst (fr : Frame) (slope b lr : ℚ) :
    (fr.gradient_descent slope b lr).1 =
      (slope - slope_gradient_sum fr slope b * lr,
       b - intercept_gradient_sum fr slope b * lr) := by
  simp only [Frame.gradient_descent, gd_foldl]
  simp [slope_gradient_sum, intercept_gradient_sum]

theorem regression_loop_quiet (fr : Frame) (lr : ℚ) (l : List ℕ)
    (p : ℚ × ℚ) (log : List (ℕ × ℚ × ℚ)) :
    l.foldl (fun st _ =>
        ((st.2.1.gradient_descent st.1.1 st.1.2 lr).1,
         (st.2.1.gradient_descent st.1.1 st.1.2 lr).2, st.2.2)) (p, fr, log)
      = (l.foldl (fun q _ => gd_step fr lr q) p, fr, log) := by
  induction l generalizing p with
  | nil => rfl
  | cons hd tl ih =>
    rw [List.foldl_cons, List.foldl_cons]
    exact ih (gd_step fr lr p)

theorem regression_loop_verbose (fr : Frame) (lr : ℚ) (l : List ℕ)
    (p : ℚ × ℚ) (log : List (ℕ × ℚ × ℚ)) :
    (l.foldl (fun st i =>
        ((st.2.1.gradient_descent st.1.1 st.1.2 lr).1,
         (st.2.1.gradient_descent st.1.1 st.1.2 lr).2,
         st.2.2 ++ [(i, (st.2.1.gradient_descent st.1.1 st.1.2 lr).1.1,
            (st.2.1.gradient_descent st.1.1 st.1.2 lr).1.2)])) (p, fr, log)).1
      = l.foldl (fun q _ => gd_step fr lr q) p
    ∧ (l.foldl (fun st i =>
        ((st.2.1.gradient_descent st.1.1 st.1.2 lr).1,
         (st.2.1.gradient_descent st.1.1 st.1.2 lr).2,
         st.2.2 ++ [(i, (st.2.1.gradient_descent st.1.1 st.1.2 lr).1.1,
            (st.2.1.gradient_descent st.1.1 st.1.2 lr).1.2)])) (p, fr, log)).2.1 = fr := by
  induction l generalizing p log with
  | nil => exact ⟨rfl, rfl⟩
  | cons hd tl ih =>
    rw [List.foldl_cons, List.foldl_cons]
    exact ih (gd_step fr lr p) (log ++ [(hd, (gd_step fr lr p).1, (gd_step fr lr p).2)])

theorem foldl_range_iterate (g : ℚ × ℚ → ℚ × ℚ) (n : ℕ) (p : ℚ × ℚ) :
    (List.range n).foldl (fun q _ => g q) p = g^[n] p := by
  induction n with
  | zero => rfl
  | succ m ih =>
    rw [List.range_succ, List.foldl_append, ih, Function.iterate_succ_apply']
    rfl

theorem regression_fst (fr : Frame) (e : ℤ) (lr : ℚ) :
    (fr.regression e lr).1 = (gd_step fr lr)^[e.toNat] (0, 0) := by
  rw [Frame.regression]
  split
  case isTrue =>
    rw [(regression_loop_verbose fr lr (List.range e.toNat) (0, 0) []).1,
      foldl_range_iterate]
  case isFalse =>
    rw [regression_loop_quiet fr lr (List.range e.toNat) (0, 0) [], foldl_range_iterate]

theorem regression_state (fr : Frame) (e : ℤ) (lr : ℚ) :
    (fr.regression e lr).2.1 = fr := by
  rw [Frame.regression]
  split
  case isTrue =>
    exact (regression_loop_verbose fr lr (List.range e.toNat) (0, 0) []).2
  case isFalse =>
    rw [regression_loop_quiet fr lr (List.range e.toNat) (0, 0) []]

theorem sum_eq_zero_iff_of_nonneg (l : List ℚ) (h : ∀ a ∈ l, 0 ≤ a) :
    l.sum = 0 ↔ ∀ a ∈ l, a = 0 := by
  induction l with
  | nil => simp
  | cons hd tl ih =>
    have hhd : 0 ≤ hd := h hd (List.mem_cons_self hd tl)
    have htl : ∀ a ∈ tl, 0 ≤ a := fun a ha => h a (List.mem_cons_of_mem hd ha)
    have hs : 0 ≤ tl.sum := List.sum_nonneg htl
    simp only [List.sum_cons, List.mem_cons]
    rw [add_eq_zero_iff_of_nonneg hhd hs, ih htl]
    constructor
    · rintro ⟨h1, h2⟩ a (rfl | ha)
      · exact h1
      · exact h2 a ha
    · intro hall
      exact ⟨hall hd (Or.inl rfl), fun a ha => hall a (Or.inr ha)⟩

theorem gd_step_a (p : ℚ × ℚ) :
    gd_step convergence_frame_a 0.0001 p =
      (9923/10000 * p.1 + -11/10000 * p.2 + 77/10000,
       -11/10000 * p.1 + 4999/5000 * p.2 + 11/10000) := by
  show (convergence_frame_a.gradient_descent p.1 p.2 0.0001).1 = _
  norm_num [Frame.gradient_descent, convergence_frame_a]
  constructor <;> ring

theorem gd_step_b (p : ℚ × ℚ) :
    gd_step convergence_frame_b 0.0001 p =
      (1120559/1125000 * p.1 + -19/25000 * p.2 + 5581/375000,
       -19/25000 * p.1 + 4999/5000 * p.2 + 77/25000) := by
  show (convergence_frame_b.gradient_descent p.1 p.2 0.0001).1 = _
  norm_num [Frame.gradient_descent, convergence_frame_b]
  constructor <;> ring

theorem contract_a (p : ℚ × ℚ) :
    lyapunov_a (gd_step convergence_frame_a 0.0001 p)
      ≤ (24999/25000) ^ 2 * lyapunov_a p := by
  rw [gd_step_a, lyapunov_a, lyapunov_a]
  have key : (24999/25000 : ℚ) ^ 2 * ((p.1 - 1) ^ 2 + p.2 ^ 2)
      - ((9923/10000 * p.1 + -11/10000 * p.2 + 77/10000 - 1) ^ 2
         + (-11/10000 * p.1 + 4999/5000 * p.2 + 11/10000) ^ 2)
      = ((19074377/1250000000 * (p.1 - 1) + 219131/100000000 * p.2) ^ 2
         + (388443963141/6250000000000000000) * p.2 ^ 2) / (19074377/1250000000) := by
    ring
  have hpos : (0 : ℚ) ≤ ((19074377/1250000000 * (p.1 - 1) + 219131/100000000 * p.2) ^ 2
      + (388443963141/6250000000000000000) * p.2 ^ 2) / (19074377/1250000000) := by
    positivity
  linarith [key, hpos]

theorem contract_b (p : ℚ × ℚ) :
    lyapunov_b (gd_step convergence_frame_b 0.0001 p)
      ≤ (19999/20000) ^ 2 * lyapunov_b p := by
  rw [gd_step_b, lyapunov_b, lyapunov_b]
  have key : (19999/20000 : ℚ) ^ 2 * ((p.1 - 3) ^ 2 + (p.2 - 4) ^ 2)
      - ((1120559/1125000 * p.1 + -19/25000 * p.2 + 5581/375000 - 3) ^ 2
         + (-19/25000 * p.1 + 4999/5000 * p.2 + 77/25000 - 4) ^ 2)
      = ((157523794529/20250000000000 * (p.1 - 3) + 21330673/14062500000 * (p.2 - 4)) ^ 2
         + (75798685849771/2700000000000000000000) * (p.2 - 4) ^ 2)
        / (157523794529/20250000000000) := by
    ring
  have hpos : (0 : ℚ) ≤ ((157523794529/20250000000000 * (p.1 - 3)
        + 21330673/14062500000 * (p.2 - 4)) ^ 2
      + (75798685849771/2700000000000000000000) * (p.2 - 4) ^ 2)
        / (157523794529/20250000000000) := by
    positivity
  linarith [key, hpos]

theorem iterate_contract (g : ℚ × ℚ → ℚ × ℚ) (V : ℚ × ℚ → ℚ) (r : ℚ) (hr : 0 ≤ r)
    (hc : ∀ p, V (g p) ≤ r * V p) (p0 : ℚ × ℚ) (k : ℕ) :
    V (g^[k] p0) ≤ r ^ k * V p0 := by
  induction k with
  | zero => simp
  | succ m ih =>
    rw [Function.iterate_succ_apply']
    calc V (g (g^[m] p0)) ≤ r * V (g^[m] p0) := hc _
      _ ≤ r * (r ^ m * V p0) := mul_le_mul_of_nonneg_left ih hr
      _ = r ^ (m + 1) * V p0 := by ring

theorem rho_a_pow_le_half : ((24999 : ℚ)/25000) ^ 25000 ≤ 1/2 := by
  have h1 : (1 : ℚ) + 25000 * (1/24999) ≤ (1 + 1/24999) ^ 25000 :=
    one_add_mul_le_pow (by norm_num) 25000
  have h2 : (2 : ℚ) ≤ (1 + 1/24999) ^ 25000 := le_trans (by norm_num) h1
  have h3 : ((24999 : ℚ)/25000) = ((1 : ℚ) + 1/24999)⁻¹ := by norm_num
  rw [h3, inv_pow]
  calc (((1 : ℚ) + 1/24999) ^ 25000)⁻¹ ≤ (2 : ℚ)⁻¹ := inv_anti₀ (by norm_num) h2
    _ = 1/2 := by norm_num

theorem rho_b_pow_le_half : ((19999 : ℚ)/20000) ^ 20000 ≤ 1/2 := by
  have h1 : (1 : ℚ) + 20000 * (1/19999) ≤ (1 + 1/19999) ^ 20000 :=
    one_add_mul_le_pow (by norm_num) 20000
  have h2 : (2 : ℚ) ≤ (1 + 1/19999) ^ 20000 := le_trans (by norm_num) h1
  have h3 : ((19999 : ℚ)/20000) = ((1 : ℚ) + 1/19999)⁻¹ := by norm_num
  rw [h3, inv_pow]
  calc (((1 : ℚ) + 1/19999) ^ 20000)⁻¹ ≤ (2 : ℚ)⁻¹ := inv_anti₀ (by norm_num) h2
    _ = 1/2 := by norm_num

theorem rho_a_sq_pow_bound : (((24999 : ℚ)/25000) ^ 2) ^ 1000000 ≤ (1/2) ^ 80 := by
  have hsplit : (((24999 : ℚ)/25000) ^ 2) ^ 1000000
      = (((24999 : ℚ)/25000) ^ 25000) ^ 80 := by
    rw [← pow_mul, ← pow_mul]
  rw [hsplit]
  exact pow_le_pow_left₀ (by positivity) rho_a_pow_le_half 80

theorem rho_b_sq_pow_bound : (((19999 : ℚ)/20000) ^ 2) ^ 1000000 ≤ (1/2) ^ 100 := by
  have hsplit : (((19999 : ℚ)/20000) ^ 2) ^ 1000000
      = (((19999 : ℚ)/20000) ^ 20000) ^ 100 := by
    rw [← pow_mul, ← pow_mul]
  rw [hsplit]
  exact pow_le_pow_left₀ (by positivity) rho_b_pow_le_half 100

theorem abs_lt_of_sq_lt (a c : ℚ) (hc : 0 < c) (h : a ^ 2 < c ^ 2) : |a| < c := by
  rw [abs_lt]
  constructor
  · nlinarith [sq_nonneg (a + c)]
  · nlinarith [sq_nonneg (a - c)]

theorem sq_sum_lt_bounds (a b : ℚ) (h : a ^ 2 + b ^ 2 < 1/10000000000) :
    |a| < 0.00001 ∧ |b| < 0.00001 := by
  constructor
  · exact abs_lt_of_sq_lt _ _ (by norm_num) (by nlinarith [sq_nonneg b])
  · exact abs_lt_of_sq_lt _ _ (by norm_num) (by nlinarith [sq_nonneg a])

/-- Claim C1: for a dataset with non-empty, equal-length x and y,
`gradient_descent(slope, intercept, learning_rate)` returns exactly
`(slope - slope_gradient * learning_rate, intercept - intercept_gradient *
learning_rate)`, where the gradients are the dataset-order sums of
`-(2/n) * x_i * (y_i - (slope*x_i + intercept))` and
`-(2/n) * (y_i - (slope*x_i + intercept))` with the factor applied inside
each summand. -/
theorem c1_gradient_descent_formula (fr : Frame) (slope b lr : ℚ)
    (_hne : fr.x ≠ []) (_hlen : fr.x.length = fr.y.length) :
    (fr.gradient_descent slope b lr).1 =
      (slope - slope_gradient_sum fr slope b * lr,
       b - intercept_gradient_sum fr slope b * lr) :=
  gradient_descent_fst fr slope b lr

theorem c1_gradient_descent_formula_witness :
    (fixture_frame.x ≠ [] ∧ fixture_frame.x.length = fixture_frame.y.length)
    ∧ (fixture_frame.gradient_descent 1 0 1).1 =
        (1 - slope_gradient_sum fixture_frame 1 0 * 1,
         0 - intercept_gradient_sum fixture_frame 1 0 * 1) :=
  ⟨⟨by decide, rfl⟩, c1_gradient_descent_formula fixture_frame 1 0 1 (by decide) rfl⟩

/-- Claim C2: `regression(e, learning_rate)` starts from `(0.0, 0.0)`, applies
`gradient_descent` exactly `e` times in sequence, and returns the final pair;
for `e = 0` it returns `(0.0, 0.0)` unchanged for any dataset and learning
rate. -/
theorem c2_regression_iterates (fr : Frame) (e : ℤ) (lr : ℚ) (_he : 0 ≤ e) :
    (fr.regression e lr).1 = (gd_step fr lr)^[e.toNat] (0, 0)
      ∧ (fr.regression 0 lr).1 = (0, 0) :=
  ⟨regression_fst fr e lr, regression_fst fr 0 lr⟩

theorem c2_regression_iterates_witness :
    (0 : ℤ) ≤ 2
    ∧ ((fixture_frame.regression 2 1).1 = (gd_step fixture_frame 1)^[(2 : ℤ).toNat] (0, 0)
        ∧ (fixture_frame.regression 0 1).1 = (0, 0)) :=
  ⟨by decide, c2_regression_iterates fixture_frame 2 1 (by decide)⟩

/-- Claim C3: for equal-length x and y, `squared_error(f)` returns the sum, in
index order over the aligned pairs, of `(y_i - f x_i)^2`; it has no side
effects on the frame, and on an empty dataset it returns 0. -/
theorem c3_squared_error_sum_spec (fr : Frame) (f : ℚ → ℚ)
    (_hlen : fr.x.length = fr.y.length) :
    (fr.squared_error f).1 = squared_error_sum fr f
      ∧ (fr.squared_error f).2 = fr
      ∧ (fr.x = [] → (fr.squared_error f).1 = 0) := by
  refine ⟨squared_error_fst fr f, rfl, fun hx => ?_⟩
  rw [squared_error_fst, squared_error_sum, hx]
  rfl

theorem c3_squared_error_sum_spec_witness :
    empty_frame.x.length = empty_frame.y.length
    ∧ ((empty_frame.squared_error id).1 = squared_error_sum empty_frame id
       ∧ (empty_frame.squared_error id).2 = empty_frame
       ∧ (empty_frame.x = [] → (empty_frame.squared_error id).1 = 0)) :=
  ⟨rfl, c3_squared_error_sum_spec empty_frame id rfl⟩

/-- Claim C4: for a non-empty dataset, `mean_squared_error(f)` equals
`squared_error(f)` divided by the number of observations, exactly. -/
theorem c4_mean_squared_error_div (fr : Frame) (f : ℚ → ℚ) (_hne : fr.x ≠ []) :
    (fr.mean_squared_error f).1 = (fr.squared_error f).1 / (fr.x.length : ℚ) :=
  rfl

theorem c4_mean_squared_error_div_witness :
    fixture_frame.x ≠ []
    ∧ (fixture_frame.mean_squared_error id).1
        = (fixture_frame.squared_error id).1 / (fixture_frame.x.length : ℚ) :=
  ⟨by decide, c4_mean_squared_error_div fixture_frame id (by decide)⟩

/-- Claim C5: for a dataset with equal-length x and y, `squared_error(f)` is
non-negative, and it is zero exactly when `f x_i = y_i` holds at every aligned
observation pair. -/
theorem c5_squared_error_nonneg_zero_iff (fr : Frame) (f : ℚ → ℚ)
    (_hlen : fr.x.length = fr.y.length) :
    0 ≤ (fr.squared_error f).1 ∧
      ((fr.squared_error f).1 = 0 ↔ ∀ xy ∈ fr.x.zip fr.y, f xy.1 = xy.2) := by
  rw [squared_error_fst, squared_error_sum]
  have hnn : ∀ a ∈ (fr.x.zip fr.y).map (fun xy => (xy.2 - f xy.1) ^ 2), 0 ≤ a := by
    intro a ha
    obtain ⟨xy, _, rfl⟩ := List.mem_map.mp ha
    exact sq_nonneg _
  refine ⟨List.sum_nonneg hnn, ?_⟩
  rw [sum_eq_zero_iff_of_nonneg _ hnn]
  constructor
  · intro h0 xy hxy
    have hz := h0 _ (List.mem_map_of_mem _ hxy)
    exact (sub_eq_zero.mp (sq_eq_zero_iff.mp hz)).symm
  · intro hall a ha
    obtain ⟨xy, hxy, rfl⟩ := List.mem_map.mp ha
    rw [hall xy hxy]
    ring

theorem c5_squared_error_nonneg_zero_iff_witness :
    fixture_frame.x.length = fixture_frame.y.length
    ∧ (0 ≤ (fixture_frame.squared_error id).1
       ∧ ((fixture_frame.squared_error id).1 = 0 ↔
            ∀ xy ∈ fixture_frame.x.zip fixture_frame.y, id xy.1 = xy.2)) :=
  ⟨rfl, c5_squared_error_nonneg_zero_iff fixture_frame id rfl⟩

/-- Claim C6: the (slope, intercept) pair returned by `regression` is the
same whether the verbose flag is true or false; the progress output does not
alter the numeric result. -/
theorem c6_regression_verbose_independent (x y : List ℚ) (e : ℤ) (lr : ℚ) :
    ((Frame.mk y x true).regression e lr).1
      = ((Frame.mk y x false).regression e lr).1 := by
  rw [regression_fst, regression_fst]
  rfl

/-- Claim C7: on the fixture x = [1,2,3,4,5], y = [1,2,4,4,5], the squared
error of the identity is exactly 1 and the mean squared error exactly 0.2; on
the fixture with x[0] set to 8 and x[2] set to 2, they are exactly 53 and
10.6. -/
theorem c7_reference_fixture_values :
    (fixture_frame.squared_error id).1 = 1
      ∧ (fixture_frame.mean_squared_error id).1 = 0.2
      ∧ (updated_frame.squared_error id).1 = 53
      ∧ (updated_frame.mean_squared_error id).1 = 10.6 := by
  refine ⟨?_, ?_, ?_, ?_⟩ <;>
    norm_num [Frame.squared_error, Frame.mean_squared_error, fixture_frame, updated_frame]

/-- Claim C9: no operation mutates the dataset: `squared_error`,
`mean_squared_error`, `gradient_descent` and `regression` all return the frame
unchanged, and evaluating `squared_error` again on the frame returned by a
first call yields the same value. -/
theorem c9_operations_preserve_frame (fr : Frame) (f : ℚ → ℚ) (s b lr : ℚ) (e : ℤ) :
    (fr.squared_error f).2 = fr
      ∧ (fr.mean_squared_error f).2 = fr
      ∧ (fr.gradient_descent s b lr).2 = fr
      ∧ (fr.regression e lr).2.1 = fr
      ∧ ((fr.squared_error f).2.squared_error f).1 = (fr.squared_error f).1 :=
  ⟨rfl, rfl, rfl, regression_state fr e lr, rfl⟩

/-- Claim C10: with mismatched x and y lengths, `squared_error` and
`gradient_descent` range over exactly the first min(|x|, |y|) aligned pairs
(the zip truncates, so no out-of-bounds access exists), while
`gradient_descent` still divides by the full length of x. -/
theorem c10_zip_truncation_bounds (fr : Frame) (f : ℚ → ℚ) (s b lr : ℚ) :
    (fr.squared_error f).1 =
      ((Frame.mk (fr.y.take (min fr.x.length fr.y.length))
        (fr.x.take (min fr.x.length fr.y.length)) fr.verbose).squared_error f).1
    ∧ (fr.gradient_descent s b lr).1 =
      (s - (((fr.x.take (min fr.x.length fr.y.length)).zip
              (fr.y.take (min fr.x.length fr.y.length))).map
            (fun xy => -(2 / (fr.x.length : ℚ)) * xy.1 * (xy.2 - (s * xy.1 + b)))).sum * lr,
       b - (((fr.x.take (min fr.x.length fr.y.length)).zip
              (fr.y.take (min fr.x.length fr.y.length))).map
            (fun xy => -(2 / (fr.x.length : ℚ)) * (xy.2 - (s * xy.1 + b)))).sum * lr) := by
  constructor
  · rw [squared_error_fst, squared_error_fst]
    simp only [squared_error_sum]
    rw [← List.zip_eq_zip_take_min]
  · rw [gradient_descent_fst]
    simp only [slope_gradient_sum, intercept_gradient_sum]
    rw [List.zip_eq_zip_take_min fr.x fr.y]

/-- Claim C8: on the reference vectors, `regression(1000000, 0.0001)` lands
within 1e-5 of the exact fit: slope 1 and intercept 0 for x = y = [1..10],
slope 3 and intercept 4 for the second dataset, whose y is 3x + 4 pointwise.
Proved by a quadratic Lyapunov contraction: each gradient step is affine with
fixed point at the exact fit, and contracts the squared distance by at least
(24999/25000)^2 resp. (19999/20000)^2, which after 10^6 steps leaves far less
than 1e-10 of squared error. -/
theorem c8_convergence_reference_vectors :
    |(convergence_frame_a.regression 1000000 0.0001).1.1 - 1| < 0.00001
    ∧ |(convergence_frame_a.regression 1000000 0.0001).1.2 - 0| < 0.00001
    ∧ |(convergence_frame_b.regression 1000000 0.0001).1.1 - 3| < 0.00001
    ∧ |(convergence_frame_b.regression 1000000 0.0001).1.2 - 4| < 0.00001 := by
  have ht : ((1000000 : ℤ)).toNat = 1000000 := rfl
  have hregA : (convergence_frame_a.regression 1000000 0.0001).1
      = (gd_step convergence_frame_a 0.0001)^[1000000] (0, 0) := by
    rw [regression_fst, ht]
  have hregB : (convergence_frame_b.regression 1000000 0.0001).1
      = (gd_step convergence_frame_b 0.0001)^[1000000] (0, 0) := by
    rw [regression_fst, ht]
  have hA := iterate_contract (gd_step convergence_frame_a 0.0001) lyapunov_a
    ((24999/25000) ^ 2) (by positivity) contract_a (0, 0) 1000000
  have hV0A : lyapunov_a (0, 0) = 1 := by norm_num [lyapunov_a]
  rw [hV0A, mul_one] at hA
  have hVA : lyapunov_a ((gd_step convergence_frame_a 0.0001)^[1000000] (0, 0))
      < 1/10000000000 :=
    lt_of_le_of_lt hA (lt_of_le_of_lt rho_a_sq_pow_bound (by norm_num))
  rw [lyapunov_a] at hVA
  have hB := iterate_contract (gd_step convergence_frame_b 0.0001) lyapunov_b
    ((19999/20000) ^ 2) (by positivity) contract_b (0, 0) 1000000
  have hV0B : lyapunov_b (0, 0) = 25 := by norm_num [lyapunov_b]
  rw [hV0B] at hB
  have hVB : lyapunov_b ((gd_step convergence_frame_b 0.0001)^[1000000] (0, 0))
      < 1/10000000000 := by
    refine lt_of_le_of_lt hB ?_
    have h25 : (((19999 : ℚ)/20000) ^ 2) ^ 1000000 * 25 ≤ (1/2) ^ 100 * 25 :=
      mul_le_mul_of_nonneg_right rho_b_sq_pow_bound (by norm_num)
    exact lt_of_le_of_lt h25 (by norm_num)
  rw [lyapunov_b] at hVB
  obtain ⟨ha1, ha2⟩ := sq_sum_lt_bounds _ _ hVA
  obtain ⟨hb1, hb2⟩ := sq_sum_lt_bounds _ _ hVB
  rw [hregA, hregB]
  refine ⟨ha1, ?_, hb1, hb2⟩
  rw [sub_zero]
  exact ha2

end LinearRegressionRs
